import Mathlib

/-!
Verification of the crowd.dev integration execution pipeline (Run → Stream → Data).

The definitions below are a shallow embedding of the TypeScript sources:
  * `services/libs/sqs/src/queue.ts` (queue base, receiver loop, sender),
  * `services/apps/integration_stream_worker/src/service/integrationStreamService.ts`,
  * `services/apps/integration_run_worker/src/repo/integrationRun.repo.ts`.
Database rows are modelled as association lists keyed by id, SQL updates as
list maps, timestamps as natural-number milliseconds/seconds, JSON objects as
association lists from top-level keys to opaque rendered values, and fallible
operations as `Except`.  Repository methods whose bodies live outside the
provided sources are modelled from the specification and marked as such in
their doc comments.
-/

namespace CrowdDev

/-! ### Queue sender (`SqsQueueSender.sendMessage`, queue.ts lines 165-180) -/

/-- Embeds the parameter record built by `SqsQueueSender.sendMessage`:
`MessageGroupId` is the group id, `MessageDeduplicationId` is
`` `${groupId}-${new Date().getTime()}` `` when the queue is FIFO and
`undefined` otherwise, `MessageBody` is the serialized message. -/
structure SendParams where
  MessageGroupId : String
  MessageDeduplicationId : Option String
  MessageBody : String
  deriving Repr, DecidableEq

/-- The per-send deduplication id `` `${groupId}-${new Date().getTime()}` ``
from queue.ts line 174, with the epoch-millisecond clock value as a `Nat`. -/
def dedupId (groupId : String) (timeMs : Nat) : String :=
  groupId ++ "-" ++ Nat.repr timeMs

/-- Embeds `SqsQueueSender.sendMessage` (queue.ts lines 170-179): the send parameters
as a function of the FIFO flag, group id, serialized body and current time. -/
def sendMessageParams (isFifo : Bool) (groupId : String) (body : String)
    (timeMs : Nat) : SendParams :=
  { MessageGroupId := groupId
    MessageDeduplicationId := if isFifo then some (dedupId groupId timeMs) else none
    MessageBody := body }

/-- Modelled from the spec: an SQS FIFO queue deduplicates a second send only
when both carry the same (present) deduplication id. -/
def fifoWouldDeduplicate (a b : SendParams) : Prop :=
  a.MessageDeduplicationId.isSome ∧ a.MessageDeduplicationId = b.MessageDeduplicationId

instance (a b : SendParams) : Decidable (fifoWouldDeduplicate a b) :=
  inferInstanceAs (Decidable (_ ∧ _))

/-! Injectivity of the decimal rendering used inside the deduplication id. -/

lemma toDigitsCore_append (b : Nat) :
    ∀ (f n : Nat) (l : List Char),
      Nat.toDigitsCore b f n l = Nat.toDigitsCore b f n [] ++ l := by
  intro f
  induction f with
  | zero => intro n l; simp [Nat.toDigitsCore]
  | succ f ih =>
    intro n l
    simp only [Nat.toDigitsCore]
    by_cases h : n / b = 0
    · simp [h]
    · simp only [h, if_false]
      rw [ih (n / b) (Nat.digitChar (n % b) :: l), ih (n / b) [Nat.digitChar (n % b)]]
      simp

lemma toDigitsCore_fuel (n : Nat) : ∀ f g : Nat, n < f → n < g →
    Nat.toDigitsCore 10 f n [] = Nat.toDigitsCore 10 g n [] := by
  induction n using Nat.strong_induction_on with
  | _ n ih =>
    intro f g hf hg
    match f, g with
    | f + 1, g + 1 =>
      simp only [Nat.toDigitsCore]
      by_cases h : n / 10 = 0
      · simp [h]
      · simp only [h, if_false]
        have hn : 0 < n := by
          rcases Nat.eq_zero_or_pos n with h0 | h0
          · exact absurd (by simp [h0]) h
          · exact h0
        have hlt : n / 10 < n := Nat.div_lt_self hn (by decide)
        rw [toDigitsCore_append 10 f, toDigitsCore_append 10 g,
          ih (n / 10) hlt f g (by omega) (by omega)]

lemma toDigits_small (n : Nat) (h : n < 10) : Nat.toDigits 10 n = [Nat.digitChar n] := by
  have h0 : n / 10 = 0 := Nat.div_eq_of_lt h
  have hm : n % 10 = n := Nat.mod_eq_of_lt h
  simp [Nat.toDigits, Nat.toDigitsCore, h0, hm]

lemma toDigits_large (n : Nat) (h : 10 ≤ n) :
    Nat.toDigits 10 n = Nat.toDigits 10 (n / 10) ++ [Nat.digitChar (n % 10)] := by
  have h0 : n / 10 ≠ 0 := by omega
  have hfuel : n / 10 < n := Nat.div_lt_self (by omega) (by decide)
  show Nat.toDigitsCore 10 (n + 1) n [] = _
  simp only [Nat.toDigitsCore, h0, if_false]
  rw [toDigitsCore_append 10 n (n / 10)]
  show _ = Nat.toDigitsCore 10 (n / 10 + 1) (n / 10) [] ++ _
  rw [toDigitsCore_fuel (n / 10) n (n / 10 + 1) (by omega) (by omega)]

lemma toDigits_ne_nil (n : Nat) : Nat.toDigits 10 n ≠ [] := by
  by_cases h : n < 10
  · simp [toDigits_small n h]
  · simp [toDigits_large n (by omega)]

lemma digitChar_inj : ∀ a < 10, ∀ b < 10,
    Nat.digitChar a = Nat.digitChar b → a = b := by decide

lemma toDigits_injective : ∀ m n : Nat, Nat.toDigits 10 m = Nat.toDigits 10 n → m = n := by
  intro m
  induction m using Nat.strong_induction_on with
  | _ m ih =>
    intro n h
    by_cases hm : m < 10 <;> by_cases hn : n < 10
    · rw [toDigits_small m hm, toDigits_small n hn] at h
      exact digitChar_inj m hm n hn (List.head_eq_of_cons_eq h)
    · exfalso
      rw [toDigits_small m hm, toDigits_large n (by omega)] at h
      have hlen := congrArg List.length h
      simp only [List.length_cons, List.length_nil, List.length_append] at hlen
      exact toDigits_ne_nil (n / 10) (List.length_eq_zero.mp (by omega))
    · exfalso
      rw [toDigits_large m (by omega), toDigits_small n hn] at h
      have hlen := congrArg List.length h
      simp only [List.length_cons, List.length_nil, List.length_append] at hlen
      exact toDigits_ne_nil (m / 10) (List.length_eq_zero.mp (by omega))
    · rw [toDigits_large m (by omega), toDigits_large n (by omega)] at h
      have hrev := congrArg List.reverse h
      simp only [List.reverse_append, List.reverse_cons, List.reverse_nil,
        List.nil_append, List.cons_append] at hrev
      have hhead : Nat.digitChar (m % 10) = Nat.digitChar (n % 10) :=
        List.head_eq_of_cons_eq hrev
      have htail : (Nat.toDigits 10 (m / 10)).reverse = (Nat.toDigits 10 (n / 10)).reverse :=
        List.tail_eq_of_cons_eq hrev
      have hmod : m % 10 = n % 10 :=
        digitChar_inj (m % 10) (Nat.mod_lt m (by decide)) (n % 10) (Nat.mod_lt n (by decide)) hhead
      have hdiv : m / 10 = n / 10 :=
        ih (m / 10) (Nat.div_lt_self (by omega) (by decide)) (n / 10)
          (List.reverse_injective htail)
      omega

lemma nat_repr_data (n : Nat) : (Nat.repr n).data = Nat.toDigits 10 n := rfl

lemma nat_repr_injective {m n : Nat} (h : Nat.repr m = Nat.repr n) : m = n := by
  apply toDigits_injective
  rw [← nat_repr_data, ← nat_repr_data, h]

/-! ### Queue receiver (`SqsQueueReceiver`, queue.ts lines 86-163) -/

/-- One observable action of the receiver loop body: incrementing the in-flight
counter (`addJob`), acknowledging a message (`this.deleteMessage(receiptHandle)`),
or decrementing the counter (`removeJob`). -/
inductive ReceiverAction where
  | addJob : ReceiverAction
  | deleteMsg (receiptHandle : String) : ReceiverAction
  | removeJob : ReceiverAction
  deriving Repr, DecidableEq

/-- The handling of one received message in `SqsQueueReceiver.start`
(queue.ts lines 123-132): `addJob`, then `processMessage(...)`; on fulfilment
`deleteMessage(receiptHandle)` followed by `removeJob`; on rejection only
`removeJob` (the receipt is never deleted). The outcome of the abstract
`processMessage` promise is the `Except` argument. -/
def receiverHandleMessage (receiptHandle : String)
    (processResult : Except String Unit) : List ReceiverAction :=
  ReceiverAction.addJob ::
    (match processResult with
     | Except.ok _ => [ReceiverAction.deleteMsg receiptHandle, ReceiverAction.removeJob]
     | Except.error _ => [ReceiverAction.removeJob])

/-- The receiver's mutable concurrency state: `processingMessages` is the JS
counter (an `Int`, since the JS number is not intrinsically non-negative) and
`pending` counts the spawned `processMessage` promises that have not settled. -/
structure ReceiverState where
  processingMessages : Int
  pending : Nat
  deriving Repr, DecidableEq

/-- Embeds `SqsQueueReceiver.isAvailable` (queue.ts lines 99-101). -/
def isAvailable (s : ReceiverState) (maxConcurrentMessageProcessing : Nat) : Prop :=
  s.processingMessages < (maxConcurrentMessageProcessing : Int)

/-- One transition of the receiver loop: a message is received and spawned only
when `isAvailable` holds (queue.ts line 117), which runs `addJob`; a settled
promise (fulfilment or rejection) runs `removeJob` exactly once, and only a
previously spawned, unsettled promise can settle. -/
inductive ReceiverStep (maxC : Nat) : ReceiverState → ReceiverState → Prop where
  | receive (s : ReceiverState) (h : isAvailable s maxC) :
      ReceiverStep maxC s ⟨s.processingMessages + 1, s.pending + 1⟩
  | finish (s : ReceiverState) (h : 0 < s.pending) :
      ReceiverStep maxC s ⟨s.processingMessages - 1, s.pending - 1⟩

/-- States reachable from the initial state (`processingMessages = 0`, no
spawned work) by receiver-loop transitions. -/
inductive ReceiverReachable (maxC : Nat) : ReceiverState → Prop where
  | init : ReceiverReachable maxC ⟨0, 0⟩
  | step {s t : ReceiverState} (hs : ReceiverReachable maxC s)
      (hstep : ReceiverStep maxC s t) : ReceiverReachable maxC t

lemma receiver_counter_eq_pending {maxC : Nat} {s : ReceiverState}
    (h : ReceiverReachable maxC s) : s.processingMessages = (s.pending : Int) := by
  induction h with
  | init => rfl
  | step hs hstep ih =>
    cases hstep with
    | receive h =>
      simp only [ih]
      omega
    | finish h =>
      simp only [ih]
      omega

/-! ### Pipeline data model (`@crowd/types` enums and the relational rows) -/

/-- The enum `IntegrationRunState` from `@crowd/types`. -/
inductive IntegrationRunState where
  | pending | processing | delayed | error | processed
  deriving Repr, DecidableEq

/-- The enum `IntegrationStreamState` from `@crowd/types`. -/
inductive IntegrationStreamState where
  | pending | processing | delayed | error | processed
  deriving Repr, DecidableEq

/-- The structured error `{location, message, metadata?}` persisted in `error`
columns; the opaque `metadata` JSON is rendered to an optional string. -/
structure ErrorInfo where
  location : String
  message : String
  deriving Repr, DecidableEq

/-- A row of `integration."runStreams"`.  `data` and `type` hold the rendered
JSON payload and the stream type string of the insert in
`IntegrationRunRepository.publishStream`. -/
structure StreamRow where
  id : String
  runId : String
  parentId : Option String
  tenantId : String
  integrationId : String
  identifier : String
  type : String
  data : Option String
  state : IntegrationStreamState
  delayedUntil : Option Nat
  retries : Nat
  error : Option ErrorInfo
  processedAt : Option Nat
  deriving Repr, DecidableEq

/-- A row of `integration.runs`. -/
structure RunRow where
  id : String
  tenantId : String
  integrationId : String
  onboarding : Bool
  state : IntegrationRunState
  delayedUntil : Option Nat
  error : Option ErrorInfo
  processedAt : Option Nat
  deriving Repr, DecidableEq

/-- A row of `integrations`; `settings` is the top level of the mutable JSON
settings object, each value rendered to an opaque string. -/
structure IntegrationRow where
  id : String
  platform : String
  settings : List (String × String)
  deriving Repr, DecidableEq

/-- The relational state the pipeline reads and writes. -/
structure Db where
  streams : List StreamRow
  runs : List RunRow
  integrations : List IntegrationRow
  deriving Repr, DecidableEq

def findStream (db : Db) (streamId : String) : Option StreamRow :=
  db.streams.find? (fun s => s.id == streamId)

def findRun (db : Db) (runId : String) : Option RunRow :=
  db.runs.find? (fun r => r.id == runId)

def findIntegration (db : Db) (integrationId : String) : Option IntegrationRow :=
  db.integrations.find? (fun i => i.id == integrationId)

/-! ### Stream worker repository operations

`IntegrationStreamRepository` (integration_stream_worker) is not among the
provided sources; the effect of each of its methods on the rows is modelled
from the specification (§4.3 step 6, §7, §8) where noted. -/

/-- One repository call made by `IntegrationStreamService.processStream`. -/
inductive RepoOp where
  | markStreamError (streamId : String) (error : ErrorInfo)
  | markRunError (runId : String) (error : ErrorInfo)
  | markStreamInProgress (streamId : String)
  | markStreamProcessed (streamId : String)
  | resetStream (streamId : String)
  | delayRun (runId : String) (delayedUntil : Nat)
  | delayStream (streamId : String) (delayedUntil : Nat)
  deriving Repr, DecidableEq

def updStream (streamId : String) (f : StreamRow → StreamRow) (db : Db) : Db :=
  { db with streams := db.streams.map (fun s => if s.id == streamId then f s else s) }

def updRun (runId : String) (f : RunRow → RunRow) (db : Db) : Db :=
  { db with runs := db.runs.map (fun r => if r.id == runId then f r else r) }

/-- Modelled from the spec: the row effect of each missing
`IntegrationStreamRepository` method.  `markStreamError` records the structured
error, marks the stream ERROR and increments `retries` (the only increment
consistent with §8 scenario 3, where three failures with `maxStreamRetries = 2`
leave `retries = 3`); `delayStream` transitions to DELAYED with the given
`delayedUntil`; `resetStream` resets the stream to PENDING without touching
`retries` (§4.3 step 6); `delayRun` transitions the run to DELAYED;
`markRunError` matches the in-source `IntegrationRunRepository.markRunError`
(state ERROR, error stored, `processedAt = now()`). -/
def applyOp (now : Nat) (db : Db) (op : RepoOp) : Db :=
  match op with
  | RepoOp.markStreamError sid e =>
      updStream sid (fun s =>
        { s with state := IntegrationStreamState.error, error := some e,
                 retries := s.retries + 1 }) db
  | RepoOp.markRunError rid e =>
      updRun rid (fun r =>
        { r with state := IntegrationRunState.error, error := some e,
                 processedAt := some now }) db
  | RepoOp.markStreamInProgress sid =>
      updStream sid (fun s => { s with state := IntegrationStreamState.processing }) db
  | RepoOp.markStreamProcessed sid =>
      updStream sid (fun s =>
        { s with state := IntegrationStreamState.processed, processedAt := some now }) db
  | RepoOp.resetStream sid =>
      updStream sid (fun s =>
        { s with state := IntegrationStreamState.pending, delayedUntil := none,
                 error := none }) db
  | RepoOp.delayRun rid u =>
      updRun rid (fun r =>
        { r with state := IntegrationRunState.delayed, delayedUntil := some u }) db
  | RepoOp.delayStream sid u =>
      updStream sid (fun s =>
        { s with state := IntegrationStreamState.delayed, delayedUntil := some u }) db

def applyOps (now : Nat) (db : Db) (ops : List RepoOp) : Db :=
  ops.foldl (applyOp now) db

/-- Modelled from the spec: `IntegrationStreamRepository.getStreamData` loads
the stream row joined with its owning run (the service reads the run state,
onboarding flag and integration snapshot from the same result). -/
def getStreamData (db : Db) (streamId : String) : Option (StreamRow × RunRow) :=
  match findStream db streamId with
  | none => none
  | some s =>
      match findRun db s.runId with
      | none => none
      | some r => some (s, r)

/-- The outcome of awaiting the platform handler's `processStream(context)`:
fulfilment, a thrown `RateLimitError{rateLimitResetSeconds}`, or any other
rejection. -/
inductive HandlerOutcome where
  | ok
  | rateLimit (rateLimitResetSeconds : Nat)
  | failure (message : String)
  deriving Repr, DecidableEq

/-- The observable result of one `IntegrationStreamService.processStream`
invocation: the sequence of repository calls it makes, and whether the
platform handler was invoked at all. -/
structure ProcessStreamResult where
  ops : List RepoOp
  handlerInvoked : Bool
  deriving Repr, DecidableEq

/-- Embeds `IntegrationStreamService.processStream` (integrationStreamService.ts
lines 57-194): load the stream joined with its run; drop if missing; mark the
stream ERROR at `check-stream-run-state` if the run is not PROCESSING; mark it
ERROR at `check-stream-int-service` if no integration service matches the
platform; otherwise mark the stream in progress and invoke the handler, then
on fulfilment mark it processed, on `RateLimitError` reset the stream and
delay the run until `now + rateLimitResetSeconds`, and on any other error
record the error at `stream-process` and either delay the stream by
`(retries + 1) · 15` minutes (when `retries + 1 ≤ maxStreamRetries`) or stop
the run with a `stream-run-stop` error.  `now` is the clock in seconds,
`serviceFound` whether `singleOrDefault` finds a service for the platform and
`outcome` the abstracted handler result. -/
def processStream (maxStreamRetries : Nat) (now : Nat) (db : Db) (streamId : String)
    (serviceFound : Bool) (outcome : HandlerOutcome) : ProcessStreamResult :=
  match getStreamData db streamId with
  | none => ⟨[], false⟩
  | some (s, r) =>
      if r.state ≠ IntegrationRunState.processing then
        ⟨[RepoOp.markStreamError streamId
            ⟨"check-stream-run-state", "Run is not in processing state!"⟩], false⟩
      else if ¬ serviceFound then
        ⟨[RepoOp.markStreamError streamId
            ⟨"check-stream-int-service", "Could not find integration service!"⟩], false⟩
      else
        ⟨RepoOp.markStreamInProgress streamId ::
          (match outcome with
           | HandlerOutcome.ok => [RepoOp.markStreamProcessed streamId]
           | HandlerOutcome.rateLimit sec =>
               [RepoOp.resetStream streamId, RepoOp.delayRun s.runId (now + sec)]
           | HandlerOutcome.failure _ =>
               RepoOp.markStreamError streamId
                   ⟨"stream-process", "Error while processing stream!"⟩ ::
                 (if s.retries + 1 ≤ maxStreamRetries then
                   [RepoOp.delayStream streamId (now + (s.retries + 1) * 15 * 60)]
                 else
                   [RepoOp.markRunError s.runId
                     ⟨"stream-run-stop", "Stream reached maximum retries!"⟩])),
         true⟩

/-! ### Context publish operations (`IntegrationStreamService.publishStream` /
`publishData`, integrationStreamService.ts lines 213-258) -/

/-- The observable result of one private `publishStream`/`publishData` method
call: the error-marking repository calls it makes, the queue messages it
triggers (tenant id paired with the published entity id), and its returned or
rethrown outcome. -/
structure PublishMethodResult where
  errorMarks : List RepoOp
  queued : List (String × String)
  result : Except String Unit
  deriving Repr

/-- Embeds `IntegrationStreamService.publishStream` (lines 213-235): try to persist a
child stream (`repoResult` abstracts `repo.publishStream`, which yields the new
stream id) and trigger stream processing for it (`sendResult` abstracts
`streamWorkerSender.triggerStreamProcessing`); on any error mark the owning run
ERROR at `run-publish-child-stream` and rethrow. -/
def publishStreamMethod (tenantId runId : String)
    (repoResult : Except String String)
    (sendResult : String → Except String Unit) : PublishMethodResult :=
  match repoResult with
  | Except.error e =>
      ⟨[RepoOp.markRunError runId
          ⟨"run-publish-child-stream", "Error while publishing child stream!"⟩],
       [], Except.error e⟩
  | Except.ok newStreamId =>
      match sendResult newStreamId with
      | Except.error e =>
          ⟨[RepoOp.markRunError runId
              ⟨"run-publish-child-stream", "Error while publishing child stream!"⟩],
           [(tenantId, newStreamId)], Except.error e⟩
      | Except.ok _ => ⟨[], [(tenantId, newStreamId)], Except.ok ()⟩

/-- Embeds `IntegrationStreamService.publishData` (lines 237-258): try to persist a
data row (`repoResult` abstracts `repo.publishData`, yielding the new data id)
and trigger data processing for it; on any error mark the owning run ERROR at
`run-publish-stream-data` and rethrow. -/
def publishDataMethod (tenantId runId : String)
    (repoResult : Except String String)
    (sendResult : String → Except String Unit) : PublishMethodResult :=
  match repoResult with
  | Except.error e =>
      ⟨[RepoOp.markRunError runId
          ⟨"run-publish-stream-data", "Error while publishing stream data!"⟩],
       [], Except.error e⟩
  | Except.ok newDataId =>
      match sendResult newDataId with
      | Except.error e =>
          ⟨[RepoOp.markRunError runId
              ⟨"run-publish-stream-data", "Error while publishing stream data!"⟩],
           [(tenantId, newDataId)], Except.error e⟩
      | Except.ok _ => ⟨[], [(tenantId, newDataId)], Except.ok ()⟩

/-! ### Run worker repository (`IntegrationRunRepository`,
integrationRun.repo.ts) -/

/-- Modelled from the spec: `RepositoryBase.checkUpdateRowCount`
(`@crowd/database`, not among the provided sources) fails when the affected
row count differs from the expected one, so an update that matched no row
raises instead of silently doing nothing. -/
def checkUpdateRowCount (rowCount expected : Nat) : Except String Unit :=
  if rowCount == expected then Except.ok ()
  else Except.error "Updated row count does not match the expected one!"

/-- Embeds `IntegrationRunRepository.markRunError` (integrationRun.repo.ts lines
40-56): set the run's state to ERROR, store the structured error, stamp
`processedAt = now()` (and `updatedAt`), then check exactly one row was
updated. -/
def markRunErrorRepo (db : Db) (runId : String) (e : ErrorInfo) (now : Nat) :
    Except String Db :=
  let updated := updRun runId (fun r =>
    { r with state := IntegrationRunState.error, error := some e,
             processedAt := some now }) db
  match checkUpdateRowCount (db.runs.countP (fun r => r.id == runId)) 1 with
  | Except.ok _ => Except.ok updated
  | Except.error msg => Except.error msg

/-- The server-side `settings || $(settings)::jsonb` merge: keys of the right
operand win, every other top-level key of the left operand is kept. -/
def jsonbMerge (settings part : List (String × String)) : List (String × String) :=
  settings.filter (fun p => (part.lookup p.1).isNone) ++ part

/-- Embeds `IntegrationRunRepository.updateIntegrationSettings` (integrationRun.repo.ts
lines 90-105): update the `integrations` row whose id is the `integrationId` of
the given run, merging the partial settings object into `settings` with the
jsonb `||` operator, then check exactly one row was updated. -/
def updateIntegrationSettingsRepo (db : Db) (runId : String)
    (part : List (String × String)) : Except String Db :=
  let target : Option String := (findRun db runId).map (fun r => r.integrationId)
  let updated := { db with integrations := db.integrations.map (fun i =>
    if some i.id == target then { i with settings := jsonbMerge i.settings part }
    else i) }
  match checkUpdateRowCount
      (db.integrations.countP (fun i => some i.id == target)) 1 with
  | Except.ok _ => Except.ok updated
  | Except.error msg => Except.error msg

/-- Embeds `IntegrationRunRepository.publishStream` (integrationRun.repo.ts lines
107-137): `insert into integration."runStreams" ... select ... from
integration.runs where id = $(runId)` — one PENDING stream row (with the
generated id, the given identifier, type and data, and the run's `tenantId`
and `integrationId`) per run row matching `runId`, with no conflict clause;
then check exactly one row was inserted.  `newId` abstracts `generateUUIDv1()`. -/
def newStreamRow (newId runId identifier type : String) (data : Option String)
    (r : RunRow) : StreamRow :=
  { id := newId, runId := runId, parentId := none, tenantId := r.tenantId,
    integrationId := r.integrationId, identifier := identifier, type := type,
    data := data, state := IntegrationStreamState.pending, delayedUntil := none,
    retries := 0, error := none, processedAt := none }

def publishStreamRepo (db : Db) (newId runId identifier type : String)
    (data : Option String) : Except String Db :=
  let newRows :=
    (db.runs.filter (fun r => r.id == runId)).map (newStreamRow newId runId identifier type data)
  let updated := { db with streams := db.streams ++ newRows }
  match checkUpdateRowCount newRows.length 1 with
  | Except.ok _ => Except.ok updated
  | Except.error msg => Except.error msg

/-! ### Helper lemmas about row lookup after SQL-style updates -/

lemma find?_map_ite_cond {α : Type} (l : List α) (p cond : α → Bool) (f : α → α)
    (hf : ∀ a, cond a = true → p (f a) = p a) :
    (l.map (fun a => if cond a then f a else a)).find? p =
      (l.find? p).map (fun a => if cond a then f a else a) := by
  induction l with
  | nil => rfl
  | cons a t ih =>
    have hp : p (if cond a then f a else a) = p a := by
      by_cases h : cond a = true
      · simp [h, hf a h]
      · simp [h]
    cases hpa : p a with
    | true => simp [List.find?_cons, hp, hpa]
    | false => simp [List.find?_cons, hp, hpa, ih]

lemma findStream_updStream (db : Db) (tgt sid : String) (f : StreamRow → StreamRow)
    (hf : ∀ s, (f s).id = s.id) :
    findStream (updStream tgt f db) sid =
      (findStream db sid).map (fun s => if s.id == tgt then f s else s) := by
  unfold findStream updStream
  exact find?_map_ite_cond db.streams (fun s => s.id == sid) (fun s => s.id == tgt) f
    (fun a _ => by show ((f a).id == sid) = (a.id == sid); rw [hf a])

lemma findRun_updRun (db : Db) (tgt rid : String) (f : RunRow → RunRow)
    (hf : ∀ r, (f r).id = r.id) :
    findRun (updRun tgt f db) rid =
      (findRun db rid).map (fun r => if r.id == tgt then f r else r) := by
  unfold findRun updRun
  exact find?_map_ite_cond db.runs (fun r => r.id == rid) (fun r => r.id == tgt) f
    (fun a _ => by show ((f a).id == rid) = (a.id == rid); rw [hf a])

lemma findStream_updRun (db : Db) (tgt sid : String) (f : RunRow → RunRow) :
    findStream (updRun tgt f db) sid = findStream db sid := rfl

lemma findRun_updStream (db : Db) (tgt rid : String) (f : StreamRow → StreamRow) :
    findRun (updStream tgt f db) rid = findRun db rid := rfl

lemma getStreamData_eq_some {db : Db} {sid : String} {st : StreamRow} {r : RunRow}
    (h : getStreamData db sid = some (st, r)) :
    findStream db sid = some st ∧ findRun db st.runId = some r := by
  unfold getStreamData at h
  cases hs : findStream db sid with
  | none => simp [hs] at h
  | some s =>
    simp only [hs] at h
    cases hr : findRun db s.runId with
    | none => simp [hr] at h
    | some r2 =>
      simp only [hr] at h
      simp only [Option.some.injEq, Prod.mk.injEq] at h
      obtain ⟨h1, h2⟩ := h
      subst h1; subst h2
      exact ⟨rfl, hr⟩

lemma findStream_id {db : Db} {sid : String} {st : StreamRow}
    (h : findStream db sid = some st) : (st.id == sid) = true := by
  unfold findStream at h
  simpa using List.find?_some h

lemma findRun_id {db : Db} {rid : String} {r : RunRow}
    (h : findRun db rid = some r) : (r.id == rid) = true := by
  unfold findRun at h
  simpa using List.find?_some h

/-- C3: when the stream exists but its owning run is in any state other than
PROCESSING, `processStream` marks the stream ERROR at
`check-stream-run-state` as its only repository call — for every
service-lookup result and every would-be handler outcome — and does not
invoke the platform handler, so nothing is published. -/
theorem processStream_run_not_processing_short_circuits
    (maxStreamRetries now : Nat) (db : Db) (sid : String) (st : StreamRow) (r : RunRow)
    (serviceFound : Bool) (outcome : HandlerOutcome)
    (hdata : getStreamData db sid = some (st, r))
    (hrun : r.state ≠ IntegrationRunState.processing) :
    processStream maxStreamRetries now db sid serviceFound outcome =
      ⟨[RepoOp.markStreamError sid
          ⟨"check-stream-run-state", "Run is not in processing state!"⟩], false⟩ ∧
    findStream
        (applyOps now db
          (processStream maxStreamRetries now db sid serviceFound outcome).ops) sid =
      some { st with
              state := IntegrationStreamState.error,
              error := some ⟨"check-stream-run-state", "Run is not in processing state!"⟩,
              retries := st.retries + 1 } := by
  obtain ⟨hst, hr⟩ := getStreamData_eq_some hdata
  have hsid : st.id = sid := by simpa using findStream_id hst
  have hres : processStream maxStreamRetries now db sid serviceFound outcome =
      ⟨[RepoOp.markStreamError sid
          ⟨"check-stream-run-state", "Run is not in processing state!"⟩], false⟩ := by
    unfold processStream
    simp only [hdata]
    simp [hrun]
  refine ⟨hres, ?_⟩
  rw [hres]
  simp only [applyOps, List.foldl, applyOp]
  rw [findStream_updStream, hst]
  · simp [hsid]
  · exact fun s => rfl

/-- C2: when the handler throws `RateLimitError{rateLimitResetSeconds}` (any
value, 0 included), `processStream` resets the stream to PENDING with its
retries counter untouched and transitions the owning run to DELAYED with
`delayedUntil = now + rateLimitResetSeconds`. -/
theorem processStream_rate_limit_resets_stream_delays_run
    (maxStreamRetries now sec : Nat) (db : Db) (sid : String)
    (st : StreamRow) (r : RunRow)
    (hdata : getStreamData db sid = some (st, r))
    (hrun : r.state = IntegrationRunState.processing) :
    (processStream maxStreamRetries now db sid true (HandlerOutcome.rateLimit sec)).ops =
      [RepoOp.markStreamInProgress sid, RepoOp.resetStream sid,
       RepoOp.delayRun st.runId (now + sec)] ∧
    findStream
        (applyOps now db
          (processStream maxStreamRetries now db sid true (HandlerOutcome.rateLimit sec)).ops)
        sid =
      some { st with state := IntegrationStreamState.pending,
                     delayedUntil := none, error := none } ∧
    findRun
        (applyOps now db
          (processStream maxStreamRetries now db sid true (HandlerOutcome.rateLimit sec)).ops)
        st.runId =
      some { r with state := IntegrationRunState.delayed,
                    delayedUntil := some (now + sec) } := by
  obtain ⟨hst, hr⟩ := getStreamData_eq_some hdata
  have hsid : st.id = sid := by simpa using findStream_id hst
  have hrid : r.id = st.runId := by simpa using findRun_id hr
  have hres : processStream maxStreamRetries now db sid true (HandlerOutcome.rateLimit sec) =
      ⟨[RepoOp.markStreamInProgress sid, RepoOp.resetStream sid,
        RepoOp.delayRun st.runId (now + sec)], true⟩ := by
    unfold processStream
    simp only [hdata]
    simp [hrun]
  rw [hres]
  refine ⟨rfl, ?_, ?_⟩
  · simp only [applyOps, List.foldl, applyOp]
    rw [findStream_updRun, findStream_updStream, findStream_updStream, hst]
    · simp [hsid]
    · exact fun s => rfl
    · exact fun s => rfl
  · simp only [applyOps, List.foldl, applyOp]
    rw [findRun_updRun, findRun_updStream, findRun_updStream, hr]
    · simp [hrid]
    · exact fun x => rfl

/-- C1: when the handler fails with a non-rate-limit error, `processStream`
first records the error on the stream (at `stream-process`) and then, if
`retries + 1 ≤ maxStreamRetries`, delays the stream until
`now + (retries + 1) · 15` minutes with its retries incremented; otherwise the
stream stays ERROR and the owning run is marked ERROR at `stream-run-stop`. -/
theorem processStream_failure_backoff_policy
    (maxStreamRetries now : Nat) (db : Db) (sid msg : String)
    (st : StreamRow) (r : RunRow)
    (hdata : getStreamData db sid = some (st, r))
    (hrun : r.state = IntegrationRunState.processing) :
    (processStream maxStreamRetries now db sid true (HandlerOutcome.failure msg)).ops =
      RepoOp.markStreamInProgress sid ::
        RepoOp.markStreamError sid ⟨"stream-process", "Error while processing stream!"⟩ ::
        (if st.retries + 1 ≤ maxStreamRetries then
          [RepoOp.delayStream sid (now + (st.retries + 1) * 15 * 60)]
        else
          [RepoOp.markRunError st.runId
            ⟨"stream-run-stop", "Stream reached maximum retries!"⟩]) ∧
    (st.retries + 1 ≤ maxStreamRetries →
      findStream
          (applyOps now db
            (processStream maxStreamRetries now db sid true (HandlerOutcome.failure msg)).ops)
          sid =
        some { st with
                state := IntegrationStreamState.delayed,
                error := some ⟨"stream-process", "Error while processing stream!"⟩,
                retries := st.retries + 1,
                delayedUntil := some (now + (st.retries + 1) * 15 * 60) } ∧
      findRun
          (applyOps now db
            (processStream maxStreamRetries now db sid true (HandlerOutcome.failure msg)).ops)
          st.runId = some r) ∧
    (maxStreamRetries < st.retries + 1 →
      findStream
          (applyOps now db
            (processStream maxStreamRetries now db sid true (HandlerOutcome.failure msg)).ops)
          sid =
        some { st with
                state := IntegrationStreamState.error,
                error := some ⟨"stream-process", "Error while processing stream!"⟩,
                retries := st.retries + 1 } ∧
      findRun
          (applyOps now db
            (processStream maxStreamRetries now db sid true (HandlerOutcome.failure msg)).ops)
          st.runId =
        some { r with
                state := IntegrationRunState.error,
                error := some ⟨"stream-run-stop", "Stream reached maximum retries!"⟩,
                processedAt := some now }) := by
  obtain ⟨hst, hr⟩ := getStreamData_eq_some hdata
  have hsid : st.id = sid := by simpa using findStream_id hst
  have hrid : r.id = st.runId := by simpa using findRun_id hr
  have hres : processStream maxStreamRetries now db sid true (HandlerOutcome.failure msg) =
      ⟨RepoOp.markStreamInProgress sid ::
        RepoOp.markStreamError sid ⟨"stream-process", "Error while processing stream!"⟩ ::
        (if st.retries + 1 ≤ maxStreamRetries then
          [RepoOp.delayStream sid (now + (st.retries + 1) * 15 * 60)]
        else
          [RepoOp.markRunError st.runId
            ⟨"stream-run-stop", "Stream reached maximum retries!"⟩]), true⟩ := by
    unfold processStream
    simp only [hdata]
    simp [hrun]
  rw [hres]
  refine ⟨rfl, fun hle => ?_, fun hgt => ?_⟩
  · rw [if_pos hle]
    constructor
    · simp only [applyOps, List.foldl, applyOp]
      rw [findStream_updStream, findStream_updStream, findStream_updStream, hst]
      · simp [hsid]
      · exact fun s => rfl
      · exact fun s => rfl
      · exact fun s => rfl
    · simp only [applyOps, List.foldl, applyOp]
      rw [findRun_updStream, findRun_updStream, findRun_updStream]
      exact hr
  · rw [if_neg (by omega)]
    constructor
    · simp only [applyOps, List.foldl, applyOp]
      rw [findStream_updRun, findStream_updStream, findStream_updStream, hst]
      · simp [hsid]
      · exact fun s => rfl
      · exact fun s => rfl
    · simp only [applyOps, List.foldl, applyOp]
      rw [findRun_updRun, findRun_updStream, findRun_updStream, hr]
      · simp [hrid]
      · exact fun x => rfl

/-! Concrete fixtures used by the witness theorems. -/

def wRun : RunRow :=
  { id := "run-1", tenantId := "tenant-1", integrationId := "int-1", onboarding := true,
    state := IntegrationRunState.processing, delayedUntil := none, error := none,
    processedAt := none }

def wRunErr : RunRow := { wRun with state := IntegrationRunState.error }

def wStream : StreamRow :=
  { id := "str-1", runId := "run-1", parentId := none, tenantId := "tenant-1",
    integrationId := "int-1", identifier := "root-a", type := "root", data := none,
    state := IntegrationStreamState.pending, delayedUntil := none, retries := 2,
    error := none, processedAt := none }

def wDb : Db := { streams := [wStream], runs := [wRun], integrations := [] }

def wDbErr : Db := { streams := [wStream], runs := [wRunErr], integrations := [] }

/-- Witness for C3 at a concrete database whose run is in ERROR. -/
theorem processStream_run_not_processing_witness :
    processStream 5 100 wDbErr "str-1" true HandlerOutcome.ok =
      ⟨[RepoOp.markStreamError "str-1"
          ⟨"check-stream-run-state", "Run is not in processing state!"⟩], false⟩ :=
  (processStream_run_not_processing_short_circuits 5 100 wDbErr "str-1" wStream wRunErr
    true HandlerOutcome.ok (by decide) (by decide)).1

/-- Witness for C2 at a concrete database, with `rateLimitResetSeconds = 0`. -/
theorem processStream_rate_limit_witness :
    (processStream 5 100 wDb "str-1" true (HandlerOutcome.rateLimit 0)).ops =
      [RepoOp.markStreamInProgress "str-1", RepoOp.resetStream "str-1",
       RepoOp.delayRun wStream.runId (100 + 0)] :=
  (processStream_rate_limit_resets_stream_delays_run 5 100 0 wDb "str-1" wStream wRun
    (by decide) (by decide)).1

/-- Witness for C1: with `maxStreamRetries = 2` and a stream already at
`retries = 2`, a third failure marks the run ERROR at `stream-run-stop`. -/
theorem processStream_failure_witness :
    findRun
        (applyOps 100 wDb
          (processStream 2 100 wDb "str-1" true (HandlerOutcome.failure "boom")).ops)
        wStream.runId =
      some { wRun with state := IntegrationRunState.error,
                       error := some ⟨"stream-run-stop", "Stream reached maximum retries!"⟩,
                       processedAt := some 100 } :=
  ((processStream_failure_backoff_policy 2 100 wDb "str-1" "boom" wStream wRun
    (by decide) (by decide)).2.2 (by decide)).2

/-! ### C5: shallow jsonb merge of integration settings -/

lemma lookup_append {α β : Type} [BEq α] (l1 l2 : List (α × β)) (k : α) :
    (l1 ++ l2).lookup k = ((l1.lookup k).or (l2.lookup k)) := by
  induction l1 with
  | nil => simp [List.lookup]
  | cons p t ih =>
    rcases p with ⟨a, b⟩
    simp only [List.cons_append, List.lookup]
    cases h : k == a with
    | true => simp
    | false => simpa using ih

lemma lookup_filter_keys (a part : List (String × String)) (k : String) :
    (a.filter (fun p => (part.lookup p.1).isNone)).lookup k =
      if (part.lookup k).isNone then a.lookup k else none := by
  induction a with
  | nil => simp [List.lookup]
  | cons p t ih =>
    rcases p with ⟨a1, b1⟩
    by_cases hk : k = a1
    · subst hk
      by_cases hnone : (part.lookup k).isNone = true
      · simp [List.filter_cons, hnone, List.lookup, ih]
      · simp only [Bool.not_eq_true] at hnone
        simp [List.filter_cons, hnone, List.lookup, ih]
    · have hbeq : (k == a1) = false := by simpa using hk
      by_cases hnone : ((part.lookup a1).isNone : Bool) = true
      · simp [List.filter_cons, hnone, List.lookup, hbeq, ih]
      · simp only [Bool.not_eq_true] at hnone
        simp [List.filter_cons, hnone, List.lookup, hbeq, ih]

lemma lookup_jsonbMerge (a part : List (String × String)) (k : String) :
    (jsonbMerge a part).lookup k = ((part.lookup k).or (a.lookup k)) := by
  unfold jsonbMerge
  rw [lookup_append, lookup_filter_keys]
  cases h : part.lookup k with
  | none => simp
  | some v => simp

/-- C5: merging the one-key partial object `{k: v}` into an integration's
settings through `updateIntegrationSettings` stores `v` under `k` on the run's
owning integration and leaves every other top-level key unchanged. -/
theorem updateIntegrationSettings_shallow_merge
    (db : Db) (runId k v : String) (r : RunRow) (i : IntegrationRow)
    (hr : findRun db runId = some r)
    (hi : findIntegration db r.integrationId = some i)
    (hcount : db.integrations.countP (fun x => x.id == r.integrationId) = 1) :
    ∃ db2,
      updateIntegrationSettingsRepo db runId [(k, v)] = Except.ok db2 ∧
      ∃ i2, findIntegration db2 r.integrationId = some i2 ∧
        i2.settings.lookup k = some v ∧
        ∀ k2, ¬ k2 = k → i2.settings.lookup k2 = i.settings.lookup k2 := by
  have hfind : List.find? (fun x => x.id == r.integrationId) db.integrations = some i := hi
  have hiid : i.id = r.integrationId := by simpa using List.find?_some hfind
  unfold updateIntegrationSettingsRepo
  rw [hr]
  simp only [Option.map_some']
  have hcount2 : db.integrations.countP (fun x => some x.id == some r.integrationId) = 1 := by
    have hpred : (fun (x : IntegrationRow) => some x.id == some r.integrationId) =
        (fun x => x.id == r.integrationId) := by
      funext x
      show (x.id == r.integrationId) = _
      rfl
    rw [hpred]
    exact hcount
  rw [hcount2]
  simp only [checkUpdateRowCount, beq_self_eq_true, if_true]
  refine ⟨_, rfl, ?_⟩
  have hmap := find?_map_ite_cond db.integrations (fun x => x.id == r.integrationId)
      (fun x => some x.id == some r.integrationId)
      (fun x => { x with settings := jsonbMerge x.settings [(k, v)] }) (fun a _ => rfl)
  refine ⟨{ i with settings := jsonbMerge i.settings [(k, v)] }, ?_, ?_, ?_⟩
  · show (db.integrations.map _).find? _ = _
    rw [hmap, hfind]
    have hbeq : (some i.id == some r.integrationId) = true := by
      show (i.id == r.integrationId) = true
      simp [hiid]
    simp only [Option.map_some', hbeq, if_true]
  · rw [lookup_jsonbMerge]
    simp [List.lookup]
  · intro k2 hk2
    rw [lookup_jsonbMerge]
    have hbeq : (k2 == k) = false := by simpa using hk2
    simp [List.lookup, hbeq]

/-- Witness for C5, spec scenario 5: settings `{"posts":[],"lastSync":null}`
merged with `{"lastSync":"2024-01-01"}`. -/
def wIntegration : IntegrationRow :=
  { id := "int-1", platform := "devto",
    settings := [("posts", "[]"), ("lastSync", "null")] }

def wDbInt : Db := { streams := [wStream], runs := [wRun], integrations := [wIntegration] }

theorem updateIntegrationSettings_witness :
    ∃ db2,
      updateIntegrationSettingsRepo wDbInt "run-1" [("lastSync", "2024-01-01")] =
        Except.ok db2 ∧
      ∃ i2, findIntegration db2 wRun.integrationId = some i2 ∧
        i2.settings.lookup "lastSync" = some "2024-01-01" ∧
        ∀ k2, ¬ k2 = "lastSync" →
          i2.settings.lookup k2 = wIntegration.settings.lookup k2 :=
  updateIntegrationSettings_shallow_merge wDbInt "run-1" "lastSync" "2024-01-01"
    wRun wIntegration (by decide) (by decide) (by decide)

/-- C10: `markRunError` marks the run ERROR, stores the structured error and
stamps `processedAt` with the current time; on a database where no run row
matches the id the operation fails instead of silently updating nothing. -/
theorem markRunError_sets_error_state_processedAt
    (db : Db) (runId : String) (e : ErrorInfo) (now : Nat) (r : RunRow)
    (hr : findRun db runId = some r)
    (hcount : db.runs.countP (fun x => x.id == runId) = 1) :
    (∃ db2, markRunErrorRepo db runId e now = Except.ok db2 ∧
      findRun db2 runId =
        some { r with state := IntegrationRunState.error, error := some e,
                      processedAt := some now }) ∧
    (∀ db2 : Db, db2.runs.countP (fun x => x.id == runId) = 0 →
      markRunErrorRepo db2 runId e now =
        Except.error "Updated row count does not match the expected one!") := by
  constructor
  · unfold markRunErrorRepo
    rw [hcount]
    simp only [checkUpdateRowCount, beq_self_eq_true, if_true]
    refine ⟨_, rfl, ?_⟩
    rw [findRun_updRun]
    · rw [hr]
      have hrid : r.id = runId := by simpa using findRun_id hr
      simp [hrid]
    · exact fun x => rfl
  · intro db2 h0
    unfold markRunErrorRepo
    rw [h0]
    simp [checkUpdateRowCount]

/-- Witness for C10 at a concrete one-run database and the empty database. -/
theorem markRunError_witness :
    (∃ db2, markRunErrorRepo wDb "run-1" ⟨"loc", "boom"⟩ 42 = Except.ok db2 ∧
      findRun db2 "run-1" =
        some { wRun with state := IntegrationRunState.error,
                         error := some ⟨"loc", "boom"⟩, processedAt := some 42 }) ∧
    markRunErrorRepo ⟨[], [], []⟩ "run-1" ⟨"loc", "boom"⟩ 42 =
      Except.error "Updated row count does not match the expected one!" := by
  have h := markRunError_sets_error_state_processedAt wDb "run-1" ⟨"loc", "boom"⟩ 42 wRun
    (by decide) (by decide)
  exact ⟨h.1, h.2 ⟨[], [], []⟩ (by decide)⟩

/-! ### C4: publishing the same `(runId, identifier)` twice -/

lemma publishStreamRepo_ok (db : Db) (newId runId identifier ty : String)
    (d : Option String)
    (hcount : db.runs.countP (fun r => r.id == runId) = 1) :
    publishStreamRepo db newId runId identifier ty d =
      Except.ok
        { db with
          streams := db.streams ++
            ((db.runs.filter (fun r => r.id == runId)).map
              (newStreamRow newId runId identifier ty d)) } := by
  have hflen : (db.runs.filter (fun r => r.id == runId)).length = 1 := by
    rw [← List.countP_eq_length_filter]
    exact hcount
  simp only [publishStreamRepo]
  rw [List.length_map, hflen]
  simp [checkUpdateRowCount]

lemma countP_newStreamRows (l : List RunRow) (newId runId identifier ty : String)
    (d : Option String) :
    (l.map (newStreamRow newId runId identifier ty d)).countP
        (fun s => s.runId == runId && s.identifier == identifier) = l.length := by
  rw [List.countP_eq_length.mpr, List.length_map]
  intro a ha
  obtain ⟨r, _, rfl⟩ := List.mem_map.mp ha
  simp [newStreamRow]

/-- C4 (amended): `IntegrationRunRepository.publishStream` performs no dedupe
by `(runId, identifier)` — as long as the run exists, each publish inserts a
fresh stream row, so a second publish with an identifier already present under
the run adds a second row with that identifier rather than inserting nothing. -/
theorem publishStream_inserts_duplicate_identifier
    (db : Db) (runId identifier n1 n2 ty : String) (d1 d2 : Option String)
    (hcount : db.runs.countP (fun r => r.id == runId) = 1) :
    ∃ db1 db2, publishStreamRepo db n1 runId identifier ty d1 = Except.ok db1 ∧
      publishStreamRepo db1 n2 runId identifier ty d2 = Except.ok db2 ∧
      db2.streams.countP (fun s => s.runId == runId && s.identifier == identifier) =
        db.streams.countP (fun s => s.runId == runId && s.identifier == identifier) + 2 := by
  have hflen : (db.runs.filter (fun r => r.id == runId)).length = 1 := by
    rw [← List.countP_eq_length_filter]
    exact hcount
  refine ⟨{ db with
      streams := db.streams ++
        ((db.runs.filter (fun r => r.id == runId)).map
          (newStreamRow n1 runId identifier ty d1)) },
    { db with
      streams := (db.streams ++
        ((db.runs.filter (fun r => r.id == runId)).map
          (newStreamRow n1 runId identifier ty d1))) ++
        ((db.runs.filter (fun r => r.id == runId)).map
          (newStreamRow n2 runId identifier ty d2)) },
    publishStreamRepo_ok db n1 runId identifier ty d1 hcount, ?_, ?_⟩
  · exact publishStreamRepo_ok _ n2 runId identifier ty d2 hcount
  · simp only [List.countP_append]
    rw [countP_newStreamRows, countP_newStreamRows]
    simp only [hflen]

/-- The database after publishing `child-a` twice under run `run-1` with fresh
ids `s1` and `s2`. -/
def c4After : Except String Db :=
  match publishStreamRepo wDb "s1" "run-1" "child-a" "child" none with
  | Except.ok db1 => publishStreamRepo db1 "s2" "run-1" "child-a" "child" none
  | Except.error e => Except.error e

def c4Db2 : Db :=
  match c4After with
  | Except.ok d => d
  | Except.error _ => wDb

/-- Counterexample to C4 as stated: after two `publishStream` calls with the
same `(runId, identifier)` the run holds two stream rows with that identifier,
not at most one — the second publish inserts a fresh row. -/
theorem publishStream_dedupe_counterexample :
    c4After = Except.ok c4Db2 ∧
    ¬ (c4Db2.streams.countP
        (fun s => s.runId == "run-1" && s.identifier == "child-a") ≤ 1) := by
  exact ⟨rfl, by decide⟩

/-- Witness for the amended C4 at the concrete one-run database. -/
theorem publishStream_inserts_duplicate_identifier_witness :
    ∃ db1 db2, publishStreamRepo wDb "s1" "run-1" "child-a" "child" none = Except.ok db1 ∧
      publishStreamRepo db1 "s2" "run-1" "child-a" "child" none = Except.ok db2 ∧
      db2.streams.countP (fun s => s.runId == "run-1" && s.identifier == "child-a") =
        wDb.streams.countP (fun s => s.runId == "run-1" && s.identifier == "child-a") + 2 :=
  publishStream_inserts_duplicate_identifier wDb "run-1" "child-a" "s1" "s2" "child"
    none none (by decide)

/-! ### C6 and C7: the receiver loop -/

/-- C6: in the receiver loop, `deleteMessage` is called on the received
message's receipt handle exactly when `processMessage` resolves; on rejection
no receipt (this one or any other) is deleted, and in either case the
in-flight counter is decremented exactly once. -/
theorem receiver_delete_iff_process_ok (receipt : String)
    (processResult : Except String Unit) :
    (ReceiverAction.deleteMsg receipt ∈ receiverHandleMessage receipt processResult ↔
      processResult.isOk = true) ∧
    (∀ e, processResult = Except.error e →
      ∀ h2, ReceiverAction.deleteMsg h2 ∉ receiverHandleMessage receipt processResult) ∧
    (receiverHandleMessage receipt processResult).count ReceiverAction.removeJob = 1 := by
  cases processResult with
  | ok _ =>
      refine ⟨by simp [receiverHandleMessage, Except.isOk, Except.toBool], ?_, ?_⟩
      · intro e he
        cases he
      · simp [receiverHandleMessage, List.count_cons]
  | error e =>
      refine ⟨by simp [receiverHandleMessage, Except.isOk, Except.toBool], ?_, ?_⟩
      · intro e2 he2 h2
        simp [receiverHandleMessage]
      · simp [receiverHandleMessage, List.count_cons]

/-- Witness for C6 at a concrete rejected message. -/
theorem receiver_delete_iff_process_ok_witness :
    ∀ h2, ReceiverAction.deleteMsg h2 ∉
      receiverHandleMessage "receipt-1" (Except.error "boom") :=
  (receiver_delete_iff_process_ok "receipt-1" (Except.error "boom")).2.1 "boom" rfl

/-- C7: in every state the receiver loop can reach, the in-flight counter
`processingMessages` stays between 0 and `maxConcurrentMessageProcessing`:
a message is received only below the maximum, and each spawned processing
promise decrements the counter exactly once on settlement. -/
theorem receiver_processing_messages_bounded (maxC : Nat) (s : ReceiverState)
    (h : ReceiverReachable maxC s) :
    0 ≤ s.processingMessages ∧ s.processingMessages ≤ (maxC : Int) := by
  induction h with
  | init => simp
  | step hs hstep ih =>
    have hp := receiver_counter_eq_pending hs
    cases hstep with
    | receive hav =>
        unfold isAvailable at hav
        constructor
        · simp only []
          omega
        · simp only []
          omega
    | finish hpos =>
        constructor
        · simp only []
          omega
        · simp only []
          omega

/-- Witness for C7: the state after one receive under `maxConcurrency = 2`. -/
theorem receiver_processing_messages_bounded_witness :
    0 ≤ (⟨1, 1⟩ : ReceiverState).processingMessages ∧
    (⟨1, 1⟩ : ReceiverState).processingMessages ≤ (2 : Int) :=
  receiver_processing_messages_bounded 2 ⟨1, 1⟩
    (ReceiverReachable.step ReceiverReachable.init
      (ReceiverStep.receive ⟨0, 0⟩ (by simp [isAvailable])))

/-! ### C8: per-send FIFO deduplication ids -/

/-- C8: two FIFO sends with the same group id at different clock values (even
byte-identical payloads sent milliseconds apart) carry distinct
`MessageDeduplicationId`s, so the queue does not deduplicate the second
message. -/
theorem sendMessage_dedup_ids_distinct (groupId body1 body2 : String)
    (t1 t2 : Nat) (h : t1 ≠ t2) :
    (sendMessageParams true groupId body1 t1).MessageDeduplicationId ≠
      (sendMessageParams true groupId body2 t2).MessageDeduplicationId ∧
    ¬ fifoWouldDeduplicate (sendMessageParams true groupId body1 t1)
        (sendMessageParams true groupId body2 t2) := by
  have hid : dedupId groupId t1 ≠ dedupId groupId t2 := by
    intro he
    apply h
    apply toDigits_injective
    have hd := congrArg String.data he
    simp only [dedupId, String.data_append, List.append_assoc] at hd
    have h1 := List.append_cancel_left hd
    have h2 := List.append_cancel_left h1
    rw [nat_repr_data, nat_repr_data] at h2
    exact h2
  constructor
  · simp only [sendMessageParams, if_true, ne_eq, Option.some.injEq]
    exact hid
  · intro hdup
    rcases hdup with ⟨_, heq⟩
    simp only [sendMessageParams, if_true, Option.some.injEq] at heq
    exact hid heq

/-- Witness for C8: same tenant group, identical bodies, one millisecond
apart. -/
theorem sendMessage_dedup_ids_distinct_witness :
    (sendMessageParams true "tenant-1" "msg" 1000).MessageDeduplicationId ≠
      (sendMessageParams true "tenant-1" "msg" 1001).MessageDeduplicationId :=
  (sendMessage_dedup_ids_distinct "tenant-1" "msg" "msg" 1000 1001 (by decide)).1

/-! ### C9: publish failures mark the run and rethrow -/

/-- C9: if persisting or enqueuing inside the stream context's `publishStream`
(resp. `publishData`) fails, the service marks the owning run ERROR at
`run-publish-child-stream` (resp. `run-publish-stream-data`) and rethrows the
same error; the failure is never swallowed and no stream-level error mark is
written. -/
theorem publish_failure_marks_run_error_and_rethrows
    (tenantId runId : String) (repoResult : Except String String)
    (sendResult : String → Except String Unit) (e : String) :
    ((publishStreamMethod tenantId runId repoResult sendResult).result =
        Except.error e →
      (publishStreamMethod tenantId runId repoResult sendResult).errorMarks =
        [RepoOp.markRunError runId
          ⟨"run-publish-child-stream", "Error while publishing child stream!"⟩] ∧
      ∀ sid err, RepoOp.markStreamError sid err ∉
        (publishStreamMethod tenantId runId repoResult sendResult).errorMarks) ∧
    ((publishDataMethod tenantId runId repoResult sendResult).result =
        Except.error e →
      (publishDataMethod tenantId runId repoResult sendResult).errorMarks =
        [RepoOp.markRunError runId
          ⟨"run-publish-stream-data", "Error while publishing stream data!"⟩] ∧
      ∀ sid err, RepoOp.markStreamError sid err ∉
        (publishDataMethod tenantId runId repoResult sendResult).errorMarks) := by
  constructor
  · intro hres
    cases hrepo : repoResult with
    | error e2 =>
        simp [publishStreamMethod, hrepo]
    | ok newId =>
        cases hsend : sendResult newId with
        | error e2 => simp [publishStreamMethod, hrepo, hsend]
        | ok _ =>
            rw [hrepo] at hres
            simp [publishStreamMethod, hsend] at hres
  · intro hres
    cases hrepo : repoResult with
    | error e2 =>
        simp [publishDataMethod, hrepo]
    | ok newId =>
        cases hsend : sendResult newId with
        | error e2 => simp [publishDataMethod, hrepo, hsend]
        | ok _ =>
            rw [hrepo] at hres
            simp [publishDataMethod, hsend] at hres

/-- Witness for C9: a failing repository insert under both publish
operations. -/
theorem publish_failure_marks_run_error_witness :
    (publishStreamMethod "tenant-1" "run-1" (Except.error "db down")
        (fun _ => Except.ok ())).errorMarks =
      [RepoOp.markRunError "run-1"
        ⟨"run-publish-child-stream", "Error while publishing child stream!"⟩] ∧
    (publishDataMethod "tenant-1" "run-1" (Except.error "db down")
        (fun _ => Except.ok ())).errorMarks =
      [RepoOp.markRunError "run-1"
        ⟨"run-publish-stream-data", "Error while publishing stream data!"⟩] := by
  have h := publish_failure_marks_run_error_and_rethrows "tenant-1" "run-1"
    (Except.error "db down") (fun _ => Except.ok ()) "db down"
  exact ⟨(h.1 rfl).1, (h.2 rfl).1⟩

end CrowdDev
